import Mathlib

/-!
Verification of the go-smtp-slacker gateway core against its design
specification.

The development shallowly embeds the relevant Go code:

* `filepathMatch` — Go's `path/filepath.Match` glob matcher (called by the
  address policy engine).  Strings are modelled as rune (`Char`) sequences.
  The Go source loops are rendered as structurally recursive functions on an
  explicit fuel argument; every loop iteration consumes at least one
  character of the pattern (resp. chunk), so the fuel chosen at each call
  site (`length + 1`) is never exhausted on any input.
* `isAddressAllowed` — `internal/email/email.go` address policy engine.
* `loadUserDatabase` — the credential-store loader, over a list of lines.
* `Session.Mail` / `Session.Rcpt` / `Session.Data` / `Session.Reset` and the
  PLAIN auth callback — the SMTP session state machine.  External effects
  (the RFC-5322 parser, bcrypt) are passed in as explicit inputs/oracles.
* `sendMessage` — the Slack notifier `slacker.Service.SendMessage`, over an
  oracle environment for the Slack API client.
* `dispatchRecipientCalls` — the per-recipient consumer-loop body of
  `main.go`, recording the `preferHTMLBody` flag of every notifier call.
-/

namespace SmtpSlacker

/-! ### Go `path/filepath.Match` (glob matching)

Faithful translation of Go's `filepath.Match` (`scanChunk`, `matchChunk`,
`getEsc` and the `Pattern:` loop), with `Separator = '/'` (non-Windows).
`none` models `ErrBadPattern`; `some b` models `(b, nil)`. -/

/-- Leading-star stripping performed at the top of Go `scanChunk`. -/
def dropStars : List Char → List Char
  | '*' :: rest => dropStars rest
  | p => p

/-- Body scan of Go `scanChunk`: cut the pattern at the next top-level
(star outside a `[...]` range) `*`, keeping escaped pairs together.
Returns `(chunk, rest)`. -/
def scanChunkBody : Bool → List Char → List Char × List Char
  | _, [] => ([], [])
  | inrange, c :: rest =>
    if c = '\\' then
      match rest with
      | [] => ([c], [])
      | d :: rest2 =>
        let p := scanChunkBody inrange rest2
        (c :: d :: p.1, p.2)
    else if c = '[' then
      let p := scanChunkBody true rest
      (c :: p.1, p.2)
    else if c = ']' then
      let p := scanChunkBody false rest
      (c :: p.1, p.2)
    else if c = '*' then
      if inrange then
        let p := scanChunkBody inrange rest
        (c :: p.1, p.2)
      else ([], c :: rest)
    else
      let p := scanChunkBody inrange rest
      (c :: p.1, p.2)

/-- Go `scanChunk`: strip leading stars, then cut one chunk. -/
def scanChunk (pattern : List Char) : Bool × List Char × List Char :=
  let star := pattern.head? == some '*'
  let body := scanChunkBody false (dropStars pattern)
  (star, body.1, body.2)

/-- Go `getEsc`: read one (possibly `\`-escaped) character of a `[...]`
range; errors (`none`) on empty input, a leading `-` or `]`, a trailing
backslash, or when nothing follows the character inside the chunk. -/
def getEsc : List Char → Option (Char × List Char)
  | [] => none
  | c :: rest =>
    if c = '-' ∨ c = ']' then none
    else if c = '\\' then
      match rest with
      | [] => none
      | d :: rest2 => if rest2.isEmpty then none else some (d, rest2)
    else if rest.isEmpty then none else some (c, rest)

/-- Range-list parsing loop inside Go `matchChunk`'s `[` case.  Arguments
after the fuel: the chunk remainder, the accumulated `match` flag and
`nrange`.  Returns `(match, chunk after the closing bracket)`, or `none`
for `ErrBadPattern`.  Each iteration consumes at least one chunk
character, so fuel `chunk.length + 1` always suffices. -/
def matchRangesF (r : Char) : Nat → List Char → Bool → Nat → Option (Bool × List Char)
  | 0, _, _, _ => none
  | fuel + 1, chunk, m, nrange =>
    if chunk.head? = some ']' ∧ 0 < nrange then some (m, chunk.tail)
    else
      match getEsc chunk with
      | none => none
      | some (lo, chunk1) =>
        if chunk1.head? = some '-' then
          match getEsc chunk1.tail with
          | none => none
          | some (hi, chunk2) =>
            matchRangesF r fuel chunk2 (m || decide (lo ≤ r ∧ r ≤ hi)) (nrange + 1)
        else
          matchRangesF r fuel chunk1 (m || decide (lo ≤ r ∧ r ≤ lo)) (nrange + 1)

/-- Go `matchChunk`: match a chunk against the head of `s`, threading the
`failed` flag exactly as the source does (scanning continues after a
mismatch so that later `ErrBadPattern`s are still reported).  The result
is `none` for `ErrBadPattern`, `some none` for `(_, false, nil)`, and
`some (some t)` for `(t, true, nil)`.  Each iteration consumes at least
one chunk character, so fuel `chunk.length + 1` always suffices. -/
def matchChunkF : Nat → List Char → List Char → Bool → Option (Option (List Char))
  | 0, _, _, _ => none
  | fuel + 1, chunk, s, failed0 =>
    match chunk with
    | [] => if failed0 then some none else some (some s)
    | c :: ch =>
      let failed := failed0 || s.isEmpty
      if c = '[' then
        let rs : Char × List Char :=
          if failed then (Char.ofNat 0, s)
          else
            match s with
            | [] => (Char.ofNat 0, s)
            | x :: xs => (x, xs)
        let negch : Bool × List Char :=
          if ch.head? = some '^' then (true, ch.tail) else (false, ch)
        match matchRangesF rs.1 (negch.2.length + 1) negch.2 false 0 with
        | none => none
        | some (m, ch2) => matchChunkF fuel ch2 rs.2 (failed || (m == negch.1))
      else if c = '?' then
        if failed then matchChunkF fuel ch s true
        else
          match s with
          | [] => matchChunkF fuel ch s true
          | x :: xs => matchChunkF fuel ch xs (decide (x = '/'))
      else if c = '\\' then
        match ch with
        | [] => none
        | d :: ch2 =>
          if failed then matchChunkF fuel ch2 s true
          else
            match s with
            | [] => matchChunkF fuel ch2 s true
            | x :: xs => matchChunkF fuel ch2 xs (decide (d ≠ x))
      else
        if failed then matchChunkF fuel ch s true
        else
          match s with
          | [] => matchChunkF fuel ch s true
          | x :: xs => matchChunkF fuel ch xs (decide (c ≠ x))

/-- Go `matchChunk` at its natural fuel. -/
def matchChunkGo (chunk s : List Char) : Option (Option (List Char)) :=
  matchChunkF (chunk.length + 1) chunk s false

/-- Inner star loop of Go `Match`: try the chunk at every later position of
`name`, never skipping past a `/`.  `restEmpty` records whether the chunk
is the last one of the pattern.  `some (some t)` means `name = t; continue
Pattern`, `some none` means the loop was exhausted, `none` propagates
`ErrBadPattern`. -/
def starLoop (chunk : List Char) (restEmpty : Bool) : List Char → Option (Option (List Char))
  | [] => some none
  | c :: nm =>
    if c = '/' then some none
    else
      match matchChunkGo chunk nm with
      | some (some t) =>
        if restEmpty ∧ ¬t.isEmpty then starLoop chunk restEmpty nm
        else some (some t)
      | some none => starLoop chunk restEmpty nm
      | none => none

/-- Final syntactic-validity sweep of Go `Match` before returning
`(false, nil)`: scan the remaining pattern chunk by chunk against the
empty string and report whether no `ErrBadPattern` arises.  Each
iteration consumes at least one pattern character, so fuel
`pattern.length + 1` always suffices. -/
def checkValidF : Nat → List Char → Bool
  | 0, _ => false
  | fuel + 1, pattern =>
    if pattern.isEmpty then true
    else
      let sc := scanChunk pattern
      match matchChunkGo sc.2.1 [] with
      | none => false
      | some _ => checkValidF fuel sc.2.2

/-- The `Pattern:` loop of Go `filepath.Match`.  Each iteration consumes at
least one pattern character (a stripped star or a nonempty chunk), so
fuel `pattern.length + 1` always suffices. -/
def goMatchF : Nat → List Char → List Char → Option Bool
  | 0, _, _ => none
  | fuel + 1, pattern, name =>
    if pattern.isEmpty then some name.isEmpty
    else
      let sc := scanChunk pattern
      let star := sc.1
      let chunk := sc.2.1
      let rest := sc.2.2
      if star ∧ chunk.isEmpty then some (!name.contains '/')
      else
        match matchChunkGo chunk name with
        | none => none
        | some res =>
          let contT : Option (List Char) :=
            match res with
            | some t => if t.isEmpty ∨ ¬rest.isEmpty then some t else none
            | none => none
          match contT with
          | some t => goMatchF fuel rest t
          | none =>
            match (if star then starLoop chunk rest.isEmpty name else some none) with
            | none => none
            | some (some t2) => goMatchF fuel rest t2
            | some none => if checkValidF (rest.length + 1) rest then some false else none

/-- Go `filepath.Match pattern name`: `none` models `ErrBadPattern`. -/
def filepathMatch (pattern name : String) : Option Bool :=
  goMatchF (pattern.toList.length + 1) pattern.toList name.toList

/-! ### Address policy engine (`internal/email/email.go`, `isAddressAllowed`)

Each of the two scanning loops of `isAddressAllowed` skips a pattern whose
`filepath.Match` errors (logged, evaluation continues) and returns early on
the first pattern that matches; `matchesAnyPattern` is that loop shape. -/

/-- Constant `PolicyAllow = "allow"` from `internal/email/email.go`. -/
def PolicyAllow : String := "allow"

/-- Constant `PolicyDeny = "deny"` from `internal/email/email.go`. -/
def PolicyDeny : String := "deny"

/-- One allow/deny scanning loop of `isAddressAllowed`: `true` exactly when
some pattern of the list matches the address without a pattern error. -/
def matchesAnyPattern (address : String) : List String → Bool
  | [] => false
  | p :: rest =>
    match filepathMatch p address with
    | none => matchesAnyPattern address rest
    | some true => true
    | some false => matchesAnyPattern address rest

/-- Embedding of `isAddressAllowed` from `internal/email/email.go`: the deny
list is scanned first and any match rejects; then the allow list, any match
accepts; otherwise the `defaultPolicy` switch (`"allow"` accepts, `"deny"`
rejects, anything else rejects). -/
def isAddressAllowed (address : String) (allowList denyList : List String)
    (defaultPolicy : String) : Bool :=
  if matchesAnyPattern address denyList then false
  else if matchesAnyPattern address allowList then true
  else if defaultPolicy = PolicyAllow then true
  else if defaultPolicy = PolicyDeny then false
  else false

/-! ### Credential store (`internal/email/email.go`, `loadUserDatabase`)

The file content is modelled as the list of its lines (what
`bufio.Scanner` yields).  The Go `map[string]user` is modelled as an
association list with Go-map insert/lookup semantics (`goMapInsert`
replaces an existing binding in place, otherwise appends). -/

/-- The `user` struct of `internal/email/email.go`. -/
structure UserEntry where
  username : String
  passwordHash : String
  deriving DecidableEq, Repr

/-- Characters of Go's Unicode `White_Space` class, as trimmed by
`strings.TrimSpace`. -/
def goIsSpace (c : Char) : Bool :=
  c = ' ' || c = '\t' || c = '\n' || c = '\x0b' || c = '\x0c' || c = '\r' ||
  c = '\u0085' || c = '\u00A0' || c = '\u1680' ||
  (decide ('\u2000' ≤ c) && decide (c ≤ '\u200A')) ||
  c = '\u2028' || c = '\u2029' || c = '\u202F' || c = '\u205F' || c = '\u3000'

/-- Go `strings.TrimSpace`. -/
def goTrimSpace (s : String) : String :=
  String.mk (((s.toList.dropWhile goIsSpace).reverse.dropWhile goIsSpace).reverse)

/-- Split a character list at its first colon, when one is present. -/
def splitFirstColon : List Char → Option (List Char × List Char)
  | [] => none
  | c :: rest =>
    if c = ':' then some ([], rest)
    else (splitFirstColon rest).map (fun p => (c :: p.1, p.2))

/-- Go `strings.SplitN line ":" 2`: at most two fields, split at the first
colon; a line with no colon stays a single field. -/
def goSplitN2 (s : String) : List String :=
  match splitFirstColon s.toList with
  | none => [s]
  | some (a, b) => [String.mk a, String.mk b]

/-- Go `strings.HasPrefix line "#"`. -/
def goLineIsComment (s : String) : Bool :=
  s.toList.head? == some '#'

/-- Go-map assignment `m[k] = v`: replace the binding in place if the key is
present, otherwise append it. -/
def goMapInsert (m : List (String × UserEntry)) (k : String) (v : UserEntry) :
    List (String × UserEntry) :=
  if m.any (fun kv => kv.1 = k) then
    m.map (fun kv => if kv.1 = k then (k, v) else kv)
  else m ++ [(k, v)]

/-- Go-map read `m[k]`: the value bound to `k`, if any (keys are unique by
construction of `goMapInsert`). -/
def goMapLookup : List (String × UserEntry) → String → Option UserEntry
  | [], _ => none
  | kv :: rest, k => if kv.1 = k then some kv.2 else goMapLookup rest k

/-- Loop body of `loadUserDatabase`: trim the line, skip blanks and `#`
comments, skip lines that do not split into two fields on the first `:`
(logged and skipped in the source), and store well-formed entries with
last-occurrence-wins map assignment. -/
def loadStep (users : List (String × UserEntry)) (rawLine : String) :
    List (String × UserEntry) :=
  let line := goTrimSpace rawLine
  if line = "" ∨ goLineIsComment line then users
  else
    match goSplitN2 line with
    | [username, passwordHash] =>
        goMapInsert users username { username := username, passwordHash := passwordHash }
    | _ => users

/-- Embedding of `loadUserDatabase` over the list of lines of the file. -/
def loadUserDatabase (lines : List String) : List (String × UserEntry) :=
  lines.foldl loadStep []

/-- A line the loader stores: trimmed, not blank, not a comment, and
splitting into exactly two fields on the first colon. -/
def lineWellFormed (rawLine : String) : Bool :=
  let line := goTrimSpace rawLine
  if line = "" ∨ goLineIsComment line then false
  else decide ((goSplitN2 line).length = 2)

/-- Username field of a well-formed line. -/
def lineUsername (rawLine : String) : String :=
  match goSplitN2 (goTrimSpace rawLine) with
  | [username, _] => username
  | _ => ""

/-- Entry stored for a well-formed line. -/
def lineEntry (rawLine : String) : UserEntry :=
  match goSplitN2 (goTrimSpace rawLine) with
  | [username, passwordHash] => { username := username, passwordHash := passwordHash }
  | _ => { username := "", passwordHash := "" }

/-- Last well-formed line of the list carrying the given username, if any
(the spec's last-occurrence-wins reference point). -/
def lastWellFormedFor (u : String) : List String → Option String
  | [] => none
  | l :: ls =>
    match lastWellFormedFor u ls with
    | some r => some r
    | none => if lineWellFormed l && lineUsername l == u then some l else none

/-! ### SMTP session state machine (`internal/email/email.go`)

The session struct mirrors the Go `session`; the config parts it reads
(`cfg.Policies`) are inlined.  `smtp.ErrAuthRequired`, success (`nil`) and
`&smtp.SMTPError{...}` become the `SMTPReply` variants, so the transport's
structured-error view is preserved.  Logging is modelled as the list of
levels emitted (`internal/logger`). -/

/-- Policy rule set (`config.Policy`). -/
structure Policy where
  Allow : List String
  Deny : List String
  DefaultAction : String
  deriving DecidableEq, Repr

/-- The sender/recipient pair of rule sets (`config.SMTPConfig.Policies`). -/
structure Policies where
  From : Policy
  To : Policy
  deriving DecidableEq, Repr

/-- The per-connection `session` struct: `cfg` is reduced to the policy
part the handlers read, and `emailChan` to the queue the `Data` handler
pushes onto (always non-nil in `NewServer`). -/
structure Session where
  authenticated : Bool
  requireAuth : Bool
  policies : Policies
  userDb : List (String × UserEntry)
  remoteAddr : String
  deriving DecidableEq, Repr

/-- Structured result of a session handler: success, the library's
auth-required error, or a `&smtp.SMTPError{Code, Message}`. -/
inductive SMTPReply where
  | ok
  | errAuthRequired
  | smtpError (code : Nat) (message : String)
  deriving DecidableEq, Repr

/-- Levels of `internal/logger`. -/
inductive LogLevel where
  | trace
  | debug
  | info
  | warn
  | error
  | fatal
  deriving DecidableEq, Repr

/-- An address as returned by the `parsemail` parser (`mail.Address`). -/
structure MailAddress where
  Name : String
  Address : String
  deriving DecidableEq, Repr

/-- Result of `parsemail.Parse`: the fields `session.Data` reads. -/
structure ParsedEmail where
  From : List MailAddress
  To : List MailAddress
  Subject : String
  HTMLBody : String
  TextBody : String
  deriving DecidableEq, Repr

/-- The `EmailBody` struct of `internal/email/email.go`. -/
structure EmailBody where
  HTML : String
  Text : String
  deriving DecidableEq, Repr

/-- The parsed `email` struct pushed onto the dispatch channel. -/
structure Email where
  Body : EmailBody
  From : String
  Subject : String
  To : List String
  deriving DecidableEq, Repr

/-- Embedding of `session.Mail`: auth gate first, then the sender policy. -/
def Session.Mail (s : Session) (fromAddr : String) : SMTPReply :=
  if s.requireAuth && !s.authenticated then SMTPReply.errAuthRequired
  else if !(isAddressAllowed fromAddr s.policies.From.Allow s.policies.From.Deny
      s.policies.From.DefaultAction) then
    SMTPReply.smtpError 550 "Sender not allowed"
  else SMTPReply.ok

/-- Embedding of `session.Rcpt`: auth gate first, then the recipient
policy. -/
def Session.Rcpt (s : Session) (toAddr : String) : SMTPReply :=
  if s.requireAuth && !s.authenticated then SMTPReply.errAuthRequired
  else if !(isAddressAllowed toAddr s.policies.To.Allow s.policies.To.Deny
      s.policies.To.DefaultAction) then
    SMTPReply.smtpError 550 "Recipient not allowed"
  else SMTPReply.ok

/-- Observable outcome of `session.Data`: the wire reply, the emails pushed
onto the dispatch channel, and the log levels emitted. -/
structure DataResult where
  reply : SMTPReply
  enqueued : List Email
  logs : List LogLevel
  deriving DecidableEq, Repr

/-- Embedding of `session.Data`.  The raw payload and the external
`parsemail.Parse` call are summarised by `parseResult` (`none` = parse
error).  A parse error is logged at error level and absorbed (`nil`
returned, nothing enqueued); an email with no `From` address is dropped
silently; one with no recipients is dropped with a warning; otherwise the
single parsed `email` is pushed onto the channel, recipients in parsed
header order. -/
def Session.Data (s : Session) (parseResult : Option ParsedEmail) : DataResult :=
  if s.requireAuth && !s.authenticated then
    { reply := SMTPReply.errAuthRequired, enqueued := [], logs := [LogLevel.warn] }
  else
    match parseResult with
    | none =>
      { reply := SMTPReply.ok, enqueued := [], logs := [LogLevel.trace, LogLevel.error] }
    | some e =>
      match e.From with
      | [] => { reply := SMTPReply.ok, enqueued := [], logs := [LogLevel.trace] }
      | f :: _ =>
        let tos := e.To.map MailAddress.Address
        if tos.isEmpty then
          { reply := SMTPReply.ok, enqueued := [], logs := [LogLevel.trace, LogLevel.warn] }
        else
          { reply := SMTPReply.ok,
            enqueued := [{ Body := { HTML := e.HTMLBody, Text := e.TextBody },
                           From := f.Address, Subject := e.Subject, To := tos }],
            logs := [LogLevel.trace] }

/-- Embedding of `session.Reset`: the Go body is empty, so the session state
is untouched (`authenticated` included). -/
def Session.Reset (s : Session) : Session := s

/-- Embedding of the PLAIN-auth callback installed by `session.Auth`:
look the username up in the user database (absent means failure), then
compare with `bcrypt.CompareHashAndPassword` — an external primitive
modelled by the `bcryptMatch hash password` oracle.  Only on success is
`authenticated` set.  The identity parameter is ignored by the source
callback.  Returns the new session state and whether authentication
succeeded (`false` = `smtp.ErrAuthFailed`). -/
def sessionAuthPlain (bcryptMatch : String → String → Bool) (s : Session)
    (username password : String) : Session × Bool :=
  match goMapLookup s.userDb username with
  | none => (s, false)
  | some u =>
    if bcryptMatch u.passwordHash password then
      ({ s with authenticated := true }, true)
    else (s, false)

/-- One protocol command, for tracking session-state evolution. -/
inductive SessionOp where
  | mail (fromAddr : String)
  | rcpt (toAddr : String)
  | data (parseResult : Option ParsedEmail)
  | reset
  | auth (username password : String)

/-- State transition of one command: `Mail`, `Rcpt` and `Data` never write
any session field in the source, `Reset` has an empty body, and only the
auth callback can change `authenticated`. -/
def sessionStep (bcryptMatch : String → String → Bool) (s : Session) :
    SessionOp → Session
  | SessionOp.mail _ => s
  | SessionOp.rcpt _ => s
  | SessionOp.data _ => s
  | SessionOp.reset => Session.Reset s
  | SessionOp.auth u p => (sessionAuthPlain bcryptMatch s u p).1

/-! ### Slack notifier (`internal/slacker/slacker.go`) and the consumer
loop of `main.go` -/

/-- Error kinds of the `slacker` package (`ErrUserNotFound`, `ErrUserDM`,
`ErrSendMessage`); `errors.As` in `main.go` dispatches on the kind only. -/
inductive SlackError where
  | userNotFound (user : String)
  | userDM (user : String)
  | sendMessage (user : String)
  deriving DecidableEq, Repr

/-- The `errors.As(err, &sendErr)` test of `main.go` for
`*slacker.ErrSendMessage`. -/
def errorsAsSendMessage : SlackError → Bool
  | SlackError.sendMessage _ => true
  | _ => false

/-- The fields of a Slack user that `SendMessage` reads. -/
structure SlackUser where
  ID : String
  Name : String
  deriving DecidableEq, Repr

/-- Oracle for the external Slack client: user lookup by email, DM-channel
opening (returns the channel ID), and message posting (`true` = success). -/
structure SlackEnv where
  getUser : String → Option SlackUser
  openConv : String → Option String
  post : String → Bool

/-- Slack API calls, recorded in the order `SendMessage` performs them. -/
inductive SlackCall where
  | getUserByEmail (email : String)
  | openConversation (userID : String)
  | postMessage (channelID : String)
  deriving DecidableEq, Repr

/-- Embedding of `slacker.Service.SendMessage`: look the user up (failure
is `ErrUserNotFound`); with `preferHTMLBody` the HTML body is required
non-blank, otherwise the text body — a blank preferred body returns
`ErrSendMessage` before any further API call; then the DM channel is
opened (failure is `ErrUserDM`) and the message posted (failure is
`ErrSendMessage`).  The block rendering (`htmlToSlack`/`textToSlack`,
external converter libraries) does not influence control flow and is
elided.  Returns the error outcome and the API calls made. -/
def sendMessage (env : SlackEnv) (userEmail : String) (_sender : String)
    (_to : List String) (_subject : String) (body : EmailBody)
    (preferHTMLBody : Bool) : Option SlackError × List SlackCall :=
  match env.getUser userEmail with
  | none => (some (SlackError.userNotFound userEmail), [SlackCall.getUserByEmail userEmail])
  | some user =>
    if preferHTMLBody ∧ goTrimSpace body.HTML = "" then
      (some (SlackError.sendMessage user.ID), [SlackCall.getUserByEmail userEmail])
    else if ¬preferHTMLBody ∧ goTrimSpace body.Text = "" then
      (some (SlackError.sendMessage user.ID), [SlackCall.getUserByEmail userEmail])
    else
      match env.openConv user.ID with
      | none =>
        (some (SlackError.userDM user.ID),
         [SlackCall.getUserByEmail userEmail, SlackCall.openConversation user.ID])
      | some channelID =>
        if env.post channelID then
          (none,
           [SlackCall.getUserByEmail userEmail, SlackCall.openConversation user.ID,
            SlackCall.postMessage channelID])
        else
          (some (SlackError.sendMessage user.ID),
           [SlackCall.getUserByEmail userEmail, SlackCall.openConversation user.ID,
            SlackCall.postMessage channelID])

/-- Per-recipient body of the consumer loop in `main.go` (lines 45–61):
call `SendMessage` with the configured `PreferHTMLBody`; if it fails, and
the error is a `*slacker.ErrSendMessage`, and `PreferHTMLBody` is set,
call it once more — the source passes the literal `true` as the
`preferHTMLBody` argument of the retry.  `send n` is the outcome of the
`n`-th notifier call; the returned list holds the `preferHTMLBody` flag
of each call actually made. -/
def dispatchRecipientCalls (preferHTMLBody : Bool)
    (send : Nat → Option SlackError) : List Bool :=
  match send 0 with
  | none => [preferHTMLBody]
  | some err =>
    if errorsAsSendMessage err && preferHTMLBody then
      [preferHTMLBody, true]
    else [preferHTMLBody]

/-- Iterated `session.Reset` calls, for stating that prior resets do not
affect handler behaviour. -/
def resetIter : Nat → Session → Session
  | 0, s => s
  | n + 1, s => resetIter n (Session.Reset s)

/-- Sample policy pair used by concrete witnesses. -/
def samplePolicies : Policies :=
  { From := { Allow := ["*@example.com"], Deny := ["bad@example.com"],
              DefaultAction := "deny" },
    To := { Allow := ["*"], Deny := ["ignored@example.com"],
            DefaultAction := "allow" } }

/-- Sample open (no-auth-needed) session used by concrete witnesses. -/
def sampleSession : Session :=
  { authenticated := false, requireAuth := false, policies := samplePolicies,
    userDb := [], remoteAddr := "192.0.2.1:4242" }

/-- Sample auth-required, not-yet-authenticated session used by concrete
witnesses. -/
def gateSession : Session :=
  { authenticated := false, requireAuth := true, policies := samplePolicies,
    userDb := [("monitoring", { username := "monitoring", passwordHash := "h" })],
    remoteAddr := "192.0.2.2:4242" }

/-- Sample authenticated session used by concrete witnesses. -/
def authSession : Session :=
  { gateSession with authenticated := true }

/-- Sample parsed email used by concrete witnesses. -/
def sampleParsed : ParsedEmail :=
  { From := [{ Name := "", Address := "alerts@example.com" }],
    To := [{ Name := "", Address := "a@x.com" }, { Name := "", Address := "b@y.com" }],
    Subject := "Test Subject",
    HTMLBody := "<p>hi</p>",
    TextBody := "hi" }

/-- Sample Slack environment used by concrete witnesses. -/
def sampleSlackEnv : SlackEnv :=
  { getUser := fun _ => some { ID := "U1", Name := "bob" },
    openConv := fun _ => some "C1",
    post := fun _ => true }

/-! ### Sanity checks against the repository's own test suite -/

example : filepathMatch "*@domain.com" "user@domain.com" = some true := by decide
example : filepathMatch "*@domain.com" "user@other.com" = some false := by decide
example : filepathMatch "test@example.com" "test@example.com" = some true := by decide
example : filepathMatch "user-?@domain.com" "user-1@domain.com" = some true := by decide
example : filepathMatch "[" "test@example.com" = none := by decide
example : filepathMatch "*" "anything@anywhere" = some true := by decide

example : isAddressAllowed "good@example.com" ["*@example.com"] ["bad@example.com"] PolicyDeny = true := by decide
example : isAddressAllowed "bad@example.com" ["*@example.com"] ["bad@example.com"] PolicyDeny = false := by decide
example : isAddressAllowed "other@other.com" ["*@example.com"] ["bad@example.com"] PolicyDeny = false := by decide
example : isAddressAllowed "test@example.com" [] ["["] PolicyAllow = true := by decide
example : isAddressAllowed "test@example.com" ["["] [] PolicyDeny = false := by decide

example :
    loadUserDatabase ["# c", "user1:h1", "", "malformedline", "user2:h2"] =
      [("user1", { username := "user1", passwordHash := "h1" }),
       ("user2", { username := "user2", passwordHash := "h2" })] := by decide

/-! ### Helper lemmas -/

theorem matchesAnyPattern_eq_true_iff (address : String) (l : List String) :
    matchesAnyPattern address l = true ↔ ∃ p ∈ l, filepathMatch p address = some true := by
  induction l with
  | nil => simp [matchesAnyPattern]
  | cons p rest ih =>
    cases h : filepathMatch p address with
    | none => simp [matchesAnyPattern, h, ih]
    | some b => cases b <;> simp [matchesAnyPattern, h, ih]

theorem matchesAnyPattern_eq_false (address : String) (l : List String)
    (h : ∀ p ∈ l, filepathMatch p address ≠ some true) :
    matchesAnyPattern address l = false := by
  cases hb : matchesAnyPattern address l with
  | false => rfl
  | true =>
    obtain ⟨p, hp, hm⟩ := (matchesAnyPattern_eq_true_iff address l).mp hb
    exact absurd hm (h p hp)

/-! ### Claim theorems -/

/-- C1 (code bug): in the consumer loop of `main.go`, when the first
notifier call is made with the rich format preferred and fails with a
`*slacker.ErrSendMessage`, the retry — announced in the source as
"Retrying with plain text" — passes `true` for `preferHTMLBody` again, so
both calls use the rich format and no call forces the plain-text body.
Exactly two calls are made (no third attempt). -/
theorem claim_C1_retry_reuses_rich_format :
    dispatchRecipientCalls true (fun _ => some (SlackError.sendMessage "U1")) =
      [true, true] := rfl

/-- C2 (code bug): address/pattern matching in `isAddressAllowed` is
case-sensitive (`filepath.Match`), although the repository README states
"The matching is case-insensitive.": the deny pattern `bad@example.com`
rejects the exact-case address but fails to match its case variant, which
is therefore accepted. -/
theorem claim_C2_matching_is_case_sensitive :
    filepathMatch "bad@example.com" "Bad@example.com" = some false ∧
    isAddressAllowed "Bad@example.com" [] ["bad@example.com"] PolicyAllow = true ∧
    isAddressAllowed "bad@example.com" [] ["bad@example.com"] PolicyAllow = false :=
  ⟨by decide, by decide, by decide⟩

/-- C3 (confirmed): whenever some pattern of the deny list matches the
address, `isAddressAllowed` returns `false`, for every allow list and
every default action — deny precedence. -/
theorem claim_C3_deny_precedence (address : String) (allowList denyList : List String)
    (defaultPolicy : String)
    (h : ∃ p ∈ denyList, filepathMatch p address = some true) :
    isAddressAllowed address allowList denyList defaultPolicy = false := by
  have hd : matchesAnyPattern address denyList = true :=
    (matchesAnyPattern_eq_true_iff address denyList).mpr h
  simp [isAddressAllowed, hd]

theorem claim_C3_deny_precedence_witness :
    isAddressAllowed "bad@example.com" ["*@example.com"] ["bad@example.com"]
      PolicyAllow = false :=
  claim_C3_deny_precedence "bad@example.com" ["*@example.com"] ["bad@example.com"]
    PolicyAllow ⟨"bad@example.com", by decide, by decide⟩

/-- C4 (confirmed): an address matching no deny pattern and no allow
pattern is accepted exactly when the default action is `"allow"`,
rejected when it is `"deny"`, and rejected for every other value of the
default action (fail-closed). -/
theorem claim_C4_default_action (address : String) (allowList denyList : List String)
    (defaultPolicy : String)
    (hdeny : ∀ p ∈ denyList, filepathMatch p address ≠ some true)
    (hallow : ∀ p ∈ allowList, filepathMatch p address ≠ some true) :
    (defaultPolicy = PolicyAllow →
      isAddressAllowed address allowList denyList defaultPolicy = true) ∧
    (defaultPolicy = PolicyDeny →
      isAddressAllowed address allowList denyList defaultPolicy = false) ∧
    (defaultPolicy ≠ PolicyAllow → defaultPolicy ≠ PolicyDeny →
      isAddressAllowed address allowList denyList defaultPolicy = false) := by
  have hd := matchesAnyPattern_eq_false address denyList hdeny
  have ha := matchesAnyPattern_eq_false address allowList hallow
  refine ⟨fun h => ?_, fun h => ?_, fun h1 h2 => ?_⟩
  · simp [isAddressAllowed, hd, ha, h, PolicyAllow, PolicyDeny]
  · simp [isAddressAllowed, hd, ha, h, PolicyAllow, PolicyDeny]
  · rw [PolicyAllow] at h1
    rw [PolicyDeny] at h2
    simp [isAddressAllowed, hd, ha, h1, h2, PolicyAllow, PolicyDeny]

theorem claim_C4_default_action_witness :
    isAddressAllowed "x@y.z" ["a@b.c"] ["["] PolicyDeny = false :=
  (claim_C4_default_action "x@y.z" ["a@b.c"] ["["] PolicyDeny
    (by decide) (by decide)).2.1 rfl

/-- C5 (confirmed): past the auth gate, `session.Data` reports success and
enqueues nothing on a parse failure (logged at error level), on a message
with no sender address, and on a message with no recipient; a warning is
logged exactly in the zero-recipients case; otherwise exactly one parsed
message is enqueued, its recipients in parsed header order. -/
theorem claim_C5_data_outcomes (s : Session)
    (hgate : s.requireAuth = false ∨ s.authenticated = true)
    (parseResult : Option ParsedEmail) :
    (parseResult = none →
      Session.Data s parseResult =
        { reply := SMTPReply.ok, enqueued := [],
          logs := [LogLevel.trace, LogLevel.error] }) ∧
    (∀ e, parseResult = some e → e.From = [] →
      Session.Data s parseResult =
        { reply := SMTPReply.ok, enqueued := [], logs := [LogLevel.trace] }) ∧
    (∀ e, parseResult = some e → e.From ≠ [] → e.To = [] →
      Session.Data s parseResult =
        { reply := SMTPReply.ok, enqueued := [],
          logs := [LogLevel.trace, LogLevel.warn] }) ∧
    (∀ e f fs, parseResult = some e → e.From = f :: fs → e.To ≠ [] →
      Session.Data s parseResult =
        { reply := SMTPReply.ok,
          enqueued := [{ Body := { HTML := e.HTMLBody, Text := e.TextBody },
                         From := f.Address, Subject := e.Subject,
                         To := e.To.map MailAddress.Address }],
          logs := [LogLevel.trace] }) ∧
    (LogLevel.warn ∈ (Session.Data s parseResult).logs ↔
      ∃ e, parseResult = some e ∧ e.From ≠ [] ∧ e.To = []) := by
  have hgateF : (s.requireAuth && !s.authenticated) = false := by
    cases hgate with
    | inl h => simp [h]
    | inr h => simp [h]
  refine ⟨?_, ?_, ?_, ?_, ?_⟩
  · intro h
    subst h
    simp [Session.Data, hgateF]
  · intro e h hFrom
    subst h
    simp [Session.Data, hgateF, hFrom]
  · intro e h hFrom hTo
    subst h
    cases hF : e.From with
    | nil => exact absurd hF hFrom
    | cons f fs => simp [Session.Data, hgateF, hF, hTo]
  · intro e f fs h hFrom hTo
    subst h
    cases hT : e.To with
    | nil => exact absurd hT hTo
    | cons a as => simp [Session.Data, hgateF, hFrom, hT]
  · cases parseResult with
    | none => simp [Session.Data, hgateF]
    | some e =>
      cases hF : e.From with
      | nil => simp [Session.Data, hgateF, hF]
      | cons f fs =>
        cases hT : e.To with
        | nil => simp [Session.Data, hgateF, hF, hT]
        | cons a as => simp [Session.Data, hgateF, hF, hT]

theorem claim_C5_data_outcomes_witness :
    Session.Data sampleSession (some sampleParsed) =
      { reply := SMTPReply.ok,
        enqueued := [{ Body := { HTML := "<p>hi</p>", Text := "hi" },
                       From := "alerts@example.com", Subject := "Test Subject",
                       To := ["a@x.com", "b@y.com"] }],
        logs := [LogLevel.trace] } := by
  have h := (claim_C5_data_outcomes sampleSession (Or.inl rfl)
      (some sampleParsed)).2.2.2.1 sampleParsed
      { Name := "", Address := "alerts@example.com" }
      [] rfl rfl (by decide)
  simpa [sampleParsed] using h

/-- C6 (confirmed): on a session requiring authentication and not yet
authenticated, `session.Mail`, `session.Rcpt` and `session.Data` all
reject with the same `smtp.ErrAuthRequired`, for every address and every
payload, after any number of prior `Reset` calls. -/
theorem claim_C6_auth_gate (s : Session) (h1 : s.requireAuth = true)
    (h2 : s.authenticated = false) (n : Nat) (fromAddr toAddr : String)
    (parseResult : Option ParsedEmail) :
    Session.Mail (resetIter n s) fromAddr = SMTPReply.errAuthRequired ∧
    Session.Rcpt (resetIter n s) toAddr = SMTPReply.errAuthRequired ∧
    (Session.Data (resetIter n s) parseResult).reply = SMTPReply.errAuthRequired := by
  have hr : resetIter n s = s := by
    induction n with
    | zero => rfl
    | succ n ih => simpa [resetIter, Session.Reset] using ih
  rw [hr]
  refine ⟨?_, ?_, ?_⟩ <;> simp [Session.Mail, Session.Rcpt, Session.Data, h1, h2]

theorem claim_C6_auth_gate_witness :
    Session.Mail (resetIter 3 gateSession) "alerts@example.com" =
      SMTPReply.errAuthRequired ∧
    Session.Rcpt (resetIter 3 gateSession) "a@x.com" = SMTPReply.errAuthRequired ∧
    (Session.Data (resetIter 3 gateSession) (some sampleParsed)).reply =
      SMTPReply.errAuthRequired :=
  claim_C6_auth_gate gateSession rfl rfl 3 "alerts@example.com" "a@x.com"
    (some sampleParsed)

/-- Session steps never clear an already-set `authenticated` flag. -/
theorem sessionStep_preserves_auth (bcryptMatch : String → String → Bool)
    (s : Session) (op : SessionOp) (h : s.authenticated = true) :
    (sessionStep bcryptMatch s op).authenticated = true := by
  cases op with
  | mail a => exact h
  | rcpt a => exact h
  | data p => exact h
  | reset => exact h
  | auth u p =>
    cases hl : goMapLookup s.userDb u with
    | none => simp [sessionStep, sessionAuthPlain, hl, h]
    | some usr =>
      cases hb : bcryptMatch usr.passwordHash p with
      | false => simp [sessionStep, sessionAuthPlain, hl, hb, h]
      | true => simp [sessionStep, sessionAuthPlain, hl, hb]

/-- C8 (confirmed): `Reset` leaves the session (hence `authenticated`)
untouched; a single command changes `authenticated` only by a successful
auth exchange flipping it from `false` to `true`; and once `true`, the
flag stays `true` over every sequence of commands. -/
theorem claim_C8_authenticated_monotone (bcryptMatch : String → String → Bool)
    (s : Session) :
    Session.Reset s = s ∧
    (∀ op : SessionOp, (sessionStep bcryptMatch s op).authenticated = s.authenticated ∨
      (s.authenticated = false ∧ (sessionStep bcryptMatch s op).authenticated = true ∧
        ∃ u p, op = SessionOp.auth u p)) ∧
    (∀ ops : List SessionOp, s.authenticated = true →
      (List.foldl (sessionStep bcryptMatch) s ops).authenticated = true) := by
  refine ⟨rfl, ?_, ?_⟩
  · intro op
    cases op with
    | mail a => exact Or.inl rfl
    | rcpt a => exact Or.inl rfl
    | data p => exact Or.inl rfl
    | reset => exact Or.inl rfl
    | auth u p =>
      cases hl : goMapLookup s.userDb u with
      | none => left; simp [sessionStep, sessionAuthPlain, hl]
      | some usr =>
        cases hb : bcryptMatch usr.passwordHash p with
        | false => left; simp [sessionStep, sessionAuthPlain, hl, hb]
        | true =>
          cases ha : s.authenticated with
          | true => left; simp [sessionStep, sessionAuthPlain, hl, hb, ha]
          | false =>
            right
            refine ⟨rfl, ?_, u, p, rfl⟩
            simp [sessionStep, sessionAuthPlain, hl, hb]
  · intro ops
    induction ops generalizing s with
    | nil => intro h; exact h
    | cons op rest ih =>
      intro h
      exact ih (sessionStep bcryptMatch s op) (sessionStep_preserves_auth bcryptMatch s op h)

theorem claim_C8_authenticated_monotone_witness :
    (List.foldl (sessionStep (fun _ _ => true)) authSession
      [SessionOp.reset, SessionOp.mail "alerts@example.com",
       SessionOp.data none, SessionOp.rcpt "a@x.com"]).authenticated = true :=
  (claim_C8_authenticated_monotone (fun _ _ => true) authSession).2.2 _ rfl

/-- C9 (confirmed): `Mail` and `Rcpt` write no session state, so the
envelope addresses (and the policy decisions on them) cannot influence
what `Data` enqueues; the single enqueued message takes its sender from
the first parsed `From` address and its recipients exactly from the
parsed `To` header in order — in particular a recipient denied by the
recipient policy is still delivered whenever it appears in the `To`
header. -/
theorem claim_C9_enqueue_from_parse_only (bcryptMatch : String → String → Bool)
    (s : Session) (hgate : s.requireAuth = false ∨ s.authenticated = true)
    (e : ParsedEmail) (f : MailAddress) (fs : List MailAddress)
    (hf : e.From = f :: fs) (hto : e.To ≠ []) (envFrom envTo : String) :
    sessionStep bcryptMatch s (SessionOp.mail envFrom) = s ∧
    sessionStep bcryptMatch s (SessionOp.rcpt envTo) = s ∧
    (Session.Data s (some e)).enqueued =
      [{ Body := { HTML := e.HTMLBody, Text := e.TextBody }, From := f.Address,
         Subject := e.Subject, To := e.To.map MailAddress.Address }] ∧
    (∀ a ∈ e.To,
      isAddressAllowed a.Address s.policies.To.Allow s.policies.To.Deny
          s.policies.To.DefaultAction = false →
        ∀ m ∈ (Session.Data s (some e)).enqueued, a.Address ∈ m.To) := by
  have hgateF : (s.requireAuth && !s.authenticated) = false := by
    cases hgate with
    | inl h => simp [h]
    | inr h => simp [h]
  have hT : e.To.map MailAddress.Address ≠ [] := by
    cases hE : e.To with
    | nil => exact absurd hE hto
    | cons a as => simp
  have hdata : (Session.Data s (some e)).enqueued =
      [{ Body := { HTML := e.HTMLBody, Text := e.TextBody }, From := f.Address,
         Subject := e.Subject, To := e.To.map MailAddress.Address }] := by
    cases hE : e.To with
    | nil => exact absurd hE hto
    | cons a as => simp [Session.Data, hgateF, hf, hE]
  refine ⟨rfl, rfl, hdata, ?_⟩
  intro a ha _ m hm
  rw [hdata] at hm
  simp at hm
  subst hm
  exact List.mem_map_of_mem MailAddress.Address ha

theorem claim_C9_enqueue_from_parse_only_witness :
    (Session.Data sampleSession (some sampleParsed)).enqueued =
      [{ Body := { HTML := "<p>hi</p>", Text := "hi" },
         From := "alerts@example.com", Subject := "Test Subject",
         To := ["a@x.com", "b@y.com"] }] := by
  have h := (claim_C9_enqueue_from_parse_only (fun _ _ => true) sampleSession
      (Or.inl rfl) sampleParsed { Name := "", Address := "alerts@example.com" } []
      rfl (by decide) "ignored@example.com" "ignored@example.com").2.2.1
  simpa [sampleParsed] using h

/-- C10 (confirmed): when the user lookup succeeds and the preferred body
(HTML under `preferHTMLBody`, plain text otherwise) trims to the empty
string, `SendMessage` returns an `ErrSendMessage` — the error kind the
dispatcher's fallback retry dispatches on — after only the user-lookup
call: no DM channel is opened and nothing is posted. -/
theorem claim_C10_blank_preferred_body (env : SlackEnv) (userEmail sender : String)
    (tos : List String) (subject : String) (body : EmailBody)
    (preferHTMLBody : Bool) (u : SlackUser)
    (hu : env.getUser userEmail = some u)
    (hblank : goTrimSpace (if preferHTMLBody then body.HTML else body.Text) = "") :
    sendMessage env userEmail sender tos subject body preferHTMLBody =
      (some (SlackError.sendMessage u.ID), [SlackCall.getUserByEmail userEmail]) ∧
    errorsAsSendMessage (SlackError.sendMessage u.ID) = true ∧
    (∀ cid, SlackCall.openConversation cid ∉
      (sendMessage env userEmail sender tos subject body preferHTMLBody).2) ∧
    (∀ ch, SlackCall.postMessage ch ∉
      (sendMessage env userEmail sender tos subject body preferHTMLBody).2) := by
  have hmain : sendMessage env userEmail sender tos subject body preferHTMLBody =
      (some (SlackError.sendMessage u.ID), [SlackCall.getUserByEmail userEmail]) := by
    cases preferHTMLBody with
    | true =>
      simp only [if_true] at hblank
      unfold sendMessage
      rw [hu]
      simp [hblank]
    | false =>
      simp at hblank
      unfold sendMessage
      rw [hu]
      simp [hblank]
  have hsnd : (sendMessage env userEmail sender tos subject body preferHTMLBody).2 =
      [SlackCall.getUserByEmail userEmail] := by rw [hmain]
  refine ⟨hmain, rfl, ?_, ?_⟩
  · intro cid hx
    rw [hsnd] at hx
    simp at hx
  · intro ch hx
    rw [hsnd] at hx
    simp at hx

theorem claim_C10_blank_preferred_body_witness :
    sendMessage sampleSlackEnv "a@x.com" "alerts@example.com" ["a@x.com"]
      "Test Subject" { HTML := " ", Text := "hi" } true =
      (some (SlackError.sendMessage "U1"), [SlackCall.getUserByEmail "a@x.com"]) :=
  (claim_C10_blank_preferred_body sampleSlackEnv "a@x.com" "alerts@example.com"
    ["a@x.com"] "Test Subject" { HTML := " ", Text := "hi" } true
    { ID := "U1", Name := "bob" } rfl (by decide)).1

/-! ### Lemmas about the Go-map model, towards C7 -/

theorem goMapLookup_none_of_any_false (m : List (String × UserEntry)) (k : String)
    (h : m.any (fun kv => kv.1 = k) = false) : goMapLookup m k = none := by
  induction m with
  | nil => rfl
  | cons kv rest ih =>
    simp only [List.any_cons, Bool.or_eq_false_iff] at h
    have hk : kv.1 ≠ k := by simpa using h.1
    simp [goMapLookup, hk, ih h.2]

theorem goMapLookup_map_upd_self (m : List (String × UserEntry)) (k : String)
    (v : UserEntry) :
    goMapLookup (m.map (fun kv => if kv.1 = k then (k, v) else kv)) k =
      if m.any (fun kv => kv.1 = k) then some v else none := by
  induction m with
  | nil => simp [goMapLookup]
  | cons kv rest ih =>
    by_cases hk : kv.1 = k
    · simp [goMapLookup, hk]
    · have hd : (decide (kv.1 = k)) = false := by simp [hk]
      rw [List.any_cons, hd, Bool.false_or]
      simp [goMapLookup, hk, ih]

theorem goMapLookup_map_upd_other (m : List (String × UserEntry)) (k k' : String)
    (v : UserEntry) (hne : k ≠ k') :
    goMapLookup (m.map (fun kv => if kv.1 = k then (k, v) else kv)) k' =
      goMapLookup m k' := by
  have hne' : ¬k' = k := fun h => hne h.symm
  induction m with
  | nil => rfl
  | cons kv rest ih =>
    by_cases hk : kv.1 = k
    · have hk' : kv.1 ≠ k' := by rw [hk]; exact hne
      simp [goMapLookup, hk, hne, hne', hk', ih]
    · by_cases hk2 : kv.1 = k'
      · simp [goMapLookup, hk, hk2, hne']
      · simp [goMapLookup, hk, hk2, ih]

theorem goMapLookup_append_single (m : List (String × UserEntry)) (k k' : String)
    (v : UserEntry) :
    goMapLookup (m ++ [(k, v)]) k' =
      match goMapLookup m k' with
      | some u => some u
      | none => if k = k' then some v else none := by
  induction m with
  | nil => simp [goMapLookup]
  | cons kv rest ih =>
    by_cases hk : kv.1 = k'
    · simp [goMapLookup, hk]
    · simp [goMapLookup, hk, ih]

/-- Reading a Go map after an assignment: the assigned key reads the new
value, any other key is unaffected. -/
theorem goMapLookup_insert (m : List (String × UserEntry)) (k k' : String)
    (v : UserEntry) :
    goMapLookup (goMapInsert m k v) k' = if k = k' then some v else goMapLookup m k' := by
  unfold goMapInsert
  by_cases hany : m.any (fun kv => kv.1 = k) = true
  · rw [if_pos hany]
    by_cases hk : k = k'
    · subst hk
      rw [goMapLookup_map_upd_self, if_pos hany, if_pos rfl]
    · rw [goMapLookup_map_upd_other m k k' v hk, if_neg hk]
  · rw [if_neg hany, goMapLookup_append_single]
    have hnone : goMapLookup m k = none :=
      goMapLookup_none_of_any_false m k (eq_false_of_ne_true hany)
    by_cases hk : k = k'
    · subst hk
      rw [hnone]
    · cases hm : goMapLookup m k' with
      | none => simp [hk]
      | some u => simp [hk]

theorem keys_map_upd (m : List (String × UserEntry)) (k : String) (v : UserEntry) :
    (m.map (fun kv => if kv.1 = k then (k, v) else kv)).map (fun kv => kv.1) =
      m.map (fun kv => kv.1) := by
  induction m with
  | nil => rfl
  | cons kv rest ih =>
    by_cases hk : kv.1 = k
    · simp only [List.map_cons, ih, if_pos hk]
      rw [hk]
    · simp only [List.map_cons, ih, if_neg hk]

/-- A Go-map assignment preserves the key list when the key is present and
appends the key otherwise. -/
theorem goMapInsert_keys (m : List (String × UserEntry)) (k : String) (v : UserEntry) :
    (goMapInsert m k v).map (fun kv => kv.1) =
      if m.any (fun kv => kv.1 = k) then m.map (fun kv => kv.1)
      else m.map (fun kv => kv.1) ++ [k] := by
  unfold goMapInsert
  by_cases hany : m.any (fun kv => kv.1 = k) = true
  · rw [if_pos hany, if_pos hany, keys_map_upd]
  · rw [if_neg hany, if_neg hany, List.map_append]
    rfl

theorem goMapInsert_length (m : List (String × UserEntry)) (k : String) (v : UserEntry) :
    (goMapInsert m k v).length =
      if m.any (fun kv => kv.1 = k) then m.length else m.length + 1 := by
  unfold goMapInsert
  by_cases hany : m.any (fun kv => kv.1 = k) = true
  · rw [if_pos hany, if_pos hany, List.length_map]
  · rw [if_neg hany, if_neg hany, List.length_append]
    rfl

theorem any_key_iff_mem (m : List (String × UserEntry)) (k : String) :
    m.any (fun kv => kv.1 = k) = true ↔ k ∈ m.map (fun kv => kv.1) := by
  rw [List.any_eq_true]
  constructor
  · rintro ⟨kv, hkv, hk⟩
    have hp : kv.1 = k := by simpa using hk
    rw [← hp]
    exact List.mem_map_of_mem (fun kv => kv.1) hkv
  · intro hmem
    obtain ⟨kv, hkv, hk⟩ := List.mem_map.mp hmem
    exact ⟨kv, hkv, by simpa using hk⟩

/-! ### Lemmas about the user-database loader, towards C7 -/

theorem loadStep_not_wf (acc : List (String × UserEntry)) (l : String)
    (h : lineWellFormed l = false) : loadStep acc l = acc := by
  unfold loadStep
  unfold lineWellFormed at h
  by_cases h1 : goTrimSpace l = "" ∨ goLineIsComment (goTrimSpace l)
  · simp only [if_pos h1]
  · rw [if_neg h1] at h
    rw [if_neg h1]
    have h2 : (goSplitN2 (goTrimSpace l)).length ≠ 2 := by simpa using h
    cases hs : goSplitN2 (goTrimSpace l) with
    | nil => rfl
    | cons a rest =>
      cases rest with
      | nil => rfl
      | cons b rest2 =>
        cases rest2 with
        | nil => exact absurd (by rw [hs]; rfl) h2
        | cons c rest3 => rfl

theorem loadStep_wf (acc : List (String × UserEntry)) (l : String)
    (h : lineWellFormed l = true) :
    loadStep acc l = goMapInsert acc (lineUsername l) (lineEntry l) := by
  unfold loadStep lineUsername lineEntry
  unfold lineWellFormed at h
  by_cases h1 : goTrimSpace l = "" ∨ goLineIsComment (goTrimSpace l)
  · rw [if_pos h1] at h
    exact absurd h (by simp)
  · rw [if_neg h1] at h
    rw [if_neg h1]
    have h2 : (goSplitN2 (goTrimSpace l)).length = 2 := by simpa using h
    obtain ⟨a, b, hs⟩ := List.length_eq_two.mp h2
    rw [hs]

theorem goMapInsert_keys_toFinset (m : List (String × UserEntry)) (k : String)
    (v : UserEntry) :
    ((goMapInsert m k v).map (fun kv => kv.1)).toFinset =
      insert k (m.map (fun kv => kv.1)).toFinset := by
  rw [goMapInsert_keys]
  by_cases hany : m.any (fun kv => kv.1 = k) = true
  · rw [if_pos hany]
    have hk : k ∈ (m.map (fun kv => kv.1)).toFinset := by
      rw [List.mem_toFinset]
      exact (any_key_iff_mem m k).mp hany
    rw [Finset.insert_eq_self.mpr hk]
  · rw [if_neg hany, List.toFinset_append]
    rw [Finset.union_comm]
    simp [Finset.insert_eq]

theorem goMapInsert_keys_nodup (m : List (String × UserEntry)) (k : String)
    (v : UserEntry) (h : (m.map (fun kv => kv.1)).Nodup) :
    ((goMapInsert m k v).map (fun kv => kv.1)).Nodup := by
  rw [goMapInsert_keys]
  by_cases hany : m.any (fun kv => kv.1 = k) = true
  · rw [if_pos hany]
    exact h
  · rw [if_neg hany]
    have hk : k ∉ m.map (fun kv => kv.1) := fun hmem =>
      hany ((any_key_iff_mem m k).mpr hmem)
    rw [List.nodup_append]
    exact ⟨h, List.nodup_singleton k, by simpa [List.disjoint_singleton] using hk⟩

/-- The loader's store size, with no assumption on the input lines: one
entry for every distinct username seen among the keys already present and
the well-formed lines processed. -/
theorem load_foldl_length_general (lines : List String) :
    ∀ acc : List (String × UserEntry), (acc.map (fun kv => kv.1)).Nodup →
      (List.foldl loadStep acc lines).length =
        ((acc.map (fun kv => kv.1)).toFinset ∪
          ((lines.filter lineWellFormed).map lineUsername).toFinset).card := by
  induction lines with
  | nil =>
    intro acc hnd
    simp only [List.foldl_nil, List.filter_nil, List.map_nil, List.toFinset_nil,
      Finset.union_empty]
    rw [List.toFinset_card_of_nodup hnd, List.length_map]
  | cons l ls ih =>
    intro acc hnd
    by_cases hw : lineWellFormed l = true
    · have hfilter : (l :: ls).filter lineWellFormed = l :: ls.filter lineWellFormed := by
        simp [List.filter_cons, hw]
      rw [List.foldl_cons, loadStep_wf acc l hw,
        ih (goMapInsert acc (lineUsername l) (lineEntry l))
          (goMapInsert_keys_nodup acc (lineUsername l) (lineEntry l) hnd),
        goMapInsert_keys_toFinset, hfilter, List.map_cons, List.toFinset_cons,
        Finset.insert_union, Finset.union_insert]
    · have hw' : lineWellFormed l = false := eq_false_of_ne_true hw
      have hfilter : (l :: ls).filter lineWellFormed = ls.filter lineWellFormed := by
        simp [List.filter_cons, hw']
      rw [List.foldl_cons, loadStep_not_wf acc l hw', ih acc hnd, hfilter]

/-- Store size of a loaded database: the number of distinct usernames among
its well-formed lines, for every input — duplicates included. -/
theorem loadUserDatabase_length (lines : List String) :
    (loadUserDatabase lines).length =
      ((lines.filter lineWellFormed).map lineUsername).dedup.length := by
  have h := load_foldl_length_general lines [] (by simp)
  rw [loadUserDatabase, h]
  simp [List.card_toFinset]

theorem load_foldl_lookup (lines : List String) :
    ∀ (acc : List (String × UserEntry)) (u : String),
      goMapLookup (List.foldl loadStep acc lines) u =
        match lastWellFormedFor u lines with
        | some r => some (lineEntry r)
        | none => goMapLookup acc u := by
  induction lines with
  | nil => intro acc u; rfl
  | cons l ls ih =>
    intro acc u
    rw [List.foldl_cons, ih (loadStep acc l) u]
    cases hrec : lastWellFormedFor u ls with
    | some r => simp [lastWellFormedFor, hrec]
    | none =>
      simp only [lastWellFormedFor, hrec]
      by_cases hw : lineWellFormed l = true
      · rw [loadStep_wf acc l hw]
        rw [goMapLookup_insert]
        by_cases hu : lineUsername l = u
        · simp [hw, hu]
        · have : (lineUsername l == u) = false := by simpa using hu
          simp [hw, this, hu]
      · have hw' : lineWellFormed l = false := eq_false_of_ne_true hw
        rw [loadStep_not_wf acc l hw']
        simp [hw']

/-! ### C7 claim theorems -/

/-- C7 (counterexample): two well-formed lines sharing a username load into
a single map entry, so a store of "exactly N entries" fails when
usernames repeat. -/
theorem claim_C7_counterexample :
    (["a:1", "a:2"].filter lineWellFormed).length = 2 ∧
    (loadUserDatabase ["a:1", "a:2"]).length = 1 :=
  ⟨by decide, by decide⟩

/-- C7 (amended): for every input — duplicate usernames included — the
store holds exactly one entry per distinct username among the well-formed
lines, malformed, comment and blank lines being skipped without aborting
the load; in particular, when the N well-formed lines carry
pairwise-distinct usernames the store has exactly N entries; and the entry
stored for a username is always the one of the last well-formed line
carrying it (last-occurrence-wins). -/
theorem claim_C7_load_counts (lines : List String) :
    (loadUserDatabase lines).length =
      ((lines.filter lineWellFormed).map lineUsername).dedup.length ∧
    (((lines.filter lineWellFormed).map lineUsername).Nodup →
      (loadUserDatabase lines).length = (lines.filter lineWellFormed).length) ∧
    (∀ u : String, goMapLookup (loadUserDatabase lines) u =
      Option.map lineEntry (lastWellFormedFor u lines)) := by
  refine ⟨loadUserDatabase_length lines, ?_, ?_⟩
  · intro hnodup
    rw [loadUserDatabase_length lines, List.dedup_eq_self.mpr hnodup, List.length_map]
  · intro u
    have h := load_foldl_lookup lines [] u
    rw [loadUserDatabase, h]
    cases lastWellFormedFor u lines with
    | some r => rfl
    | none => rfl

theorem claim_C7_load_counts_witness :
    (loadUserDatabase ["# c", "user1:h1", "bad", "user2:h2", "user1:h3"]).length =
      (((["# c", "user1:h1", "bad", "user2:h2", "user1:h3"].filter
        lineWellFormed)).map lineUsername).dedup.length ∧
    (loadUserDatabase ["# c", "user1:h1", "bad", "user2:h2"]).length =
      (["# c", "user1:h1", "bad", "user2:h2"].filter lineWellFormed).length ∧
    goMapLookup (loadUserDatabase ["# c", "user1:h1", "bad", "user2:h2", "user1:h3"])
        "user1" =
      Option.map lineEntry
        (lastWellFormedFor "user1" ["# c", "user1:h1", "bad", "user2:h2", "user1:h3"]) :=
  ⟨(claim_C7_load_counts ["# c", "user1:h1", "bad", "user2:h2", "user1:h3"]).1,
   (claim_C7_load_counts ["# c", "user1:h1", "bad", "user2:h2"]).2.1 (by decide),
   (claim_C7_load_counts ["# c", "user1:h1", "bad", "user2:h2", "user1:h3"]).2.2 "user1"⟩

end SmtpSlacker
